import Mathlib

/-!
Verification of the Ising-model simulation engine in `src/src/IsingModel.jsx`
(`IsingModel` React component).  The spin lattice is embedded as a list of
rows of integer spins; JavaScript array indexing (which yields `undefined`
out of range, including for negative indices) is embedded as `Option`-valued
lookup.  The parameters (`temperature`, `coupling`, `externalField`, paint
centre/radius) are embedded as rationals; the single transcendental used by
the code, `Math.exp`, appears only inside the Metropolis acceptance test and
is embedded over `ℝ` in `acceptanceRule`.  The calls to `Math.random()` are
embedded as explicit draw streams, and the data-dependent acceptance branch
`Math.random() < Math.exp(-deltaE / Math.max(0.1, temperature))` is
abstracted as a Boolean oracle (one independent answer per candidate, as in
the source, where one fresh draw is consumed per candidate with positive
`deltaE`); `FaithfulPaintOracle` / `FaithfulEvolveOracle` connect such an
oracle to the real-valued formula.
-/

/-- A lattice: a list of rows, each row a list of spins (`ℤ`, intended ±1). -/
abbrev Grid := List (List ℤ)

/-- JavaScript array indexing `l[i]`: `undefined` (`none`) when `i` is
negative or out of range. -/
def jsIdx {α : Type} (l : List α) (i : ℤ) : Option α :=
  if 0 ≤ i then l.get? i.toNat else none

/-- Reads `grid[y][x]` with JavaScript semantics: `none` when the row or the cell
is missing. -/
def cell? (g : Grid) (y x : ℤ) : Option ℤ :=
  (jsIdx g y).bind fun row => jsIdx row x

/-- The guard shared by `calculateDeltaE`, `flipSpinsInRadius` and
`evolveSystem` (lines 122-131, 157-164, 204-211 of the source):
`!gridInitialized || !grid.length || grid.length !== size || !grid[0] ||
grid[0].length !== size`. -/
def guardFails (gi : Bool) (g : Grid) (size : ℕ) : Bool :=
  !gi || g.length == 0 || g.length != size || (jsIdx g 0).isNone ||
    ((jsIdx g 0).getD []).length != size

/-- Performs `newGrid[y][x] *= -1`: negate one cell in place.  (On the well-formed
grids reachable in the component the indexed cell always exists; when it
does not, this embedding leaves the grid unchanged, whereas JavaScript
would store `NaN`.) -/
def negCell (g : Grid) (y x : ℤ) : Grid :=
  match cell? g y x with
  | none => g
  | some s => g.set y.toNat ((g.getD y.toNat []).set x.toNat (-s))

/-- Embeds `calculateDeltaE` (lines 120-153): guarded local energy change
`2*J*s*nsum + 2*H*s` over the four toroidally wrapped neighbours, with the
per-neighbour definedness check of the source loop.  JavaScript `%` is
truncated remainder, i.e. `Int.tmod`. -/
def calculateDeltaE (gi : Bool) (g : Grid) (size : ℕ)
    (coupling externalField : ℚ) (x y : ℤ) : ℚ :=
  if guardFails gi g size || (jsIdx g y).isNone || (cell? g y x).isNone then 0
  else
    let spin : ℤ := (cell? g y x).getD 0
    let neighbors : List (ℤ × ℤ) :=
      [(Int.tmod (y - 1 + size) size, x), (Int.tmod (y + 1) size, x),
       (y, Int.tmod (x - 1 + size) size), (y, Int.tmod (x + 1) size)]
    let nsum : ℤ := neighbors.foldl
      (fun s p => if (cell? g p.1 p.2).isSome then s + (cell? g p.1 p.2).getD 0 else s) 0
    2 * coupling * (spin : ℚ) * (nsum : ℚ) + 2 * externalField * (spin : ℚ)

/-- The Metropolis test `deltaE <= 0 || Math.random() < Math.exp(...)`
(lines 187-190 and 222-225), with the random/exponential branch abstracted
as the Boolean `a` (the short-circuit means the branch is consulted only
when `deltaE > 0`). -/
def metropolisAccept (a : ℚ → Bool) (d : ℚ) : Bool :=
  decide (d ≤ 0) || a d

/-- The full acceptance condition of the source, with the probabilistic
branch written out: `deltaE <= 0 || u < Math.exp(-deltaE / Math.max(0.1,
temperature))`, `u` the fresh uniform draw for this candidate. -/
def acceptanceRule (T u d : ℚ) : Prop :=
  d ≤ 0 ∨ (u : ℝ) < Real.exp ((((-d) / max (1/10) T : ℚ) : ℝ))

/-- A paint oracle `A x y d` answers the probabilistic branch for the
candidate cell `(x, y)` with energy change `d`; it is faithful to draws
`u x y` and temperature `T` when it answers exactly the source's
comparison. -/
def FaithfulPaintOracle (A : ℤ → ℤ → ℚ → Bool) (u : ℤ → ℤ → ℚ) (T : ℚ) : Prop :=
  ∀ x y d, A x y d = true ↔ (u x y : ℝ) < Real.exp ((((-d) / max (1/10) T : ℚ) : ℝ))

/-- An evolve oracle `A i d` answers the probabilistic branch for trial `i`
with energy change `d`. -/
def FaithfulEvolveOracle (A : ℕ → ℚ → Bool) (u : ℕ → ℚ) (T : ℚ) : Prop :=
  ∀ i d, A i d = true ↔ (u i : ℝ) < Real.exp ((((-d) / max (1/10) T : ℚ) : ℝ))

/-- Draw shape selector (`drawMode` state, `'circle'` or `'square'`). -/
inductive DrawMode : Type
  | circle : DrawMode
  | square : DrawMode
deriving DecidableEq

/-- Region-membership test of `flipSpinsInRadius` (lines 175-183):
`dx*dx + dy*dy <= radius*radius` for circles, `|dx| <= radius && |dy| <=
radius` for squares, `dx`/`dy` measured from the fractional centre. -/
def inShapeB (cx cy r : ℚ) (mode : DrawMode) (x y : ℤ) : Bool :=
  let dx : ℚ := (x : ℚ) - cx
  let dy : ℚ := (y : ℚ) - cy
  match mode with
  | DrawMode.circle => decide (dx * dx + dy * dy ≤ r * r)
  | DrawMode.square => decide (|dx| ≤ r) && decide (|dy| ≤ r)

/-- The body of the paint double loop for one cell (lines 174-194): test
membership, evaluate `calculateDeltaE` against `grid` — the pre-paint
lattice captured by the component closure, NOT the working copy `g` — and
negate the cell of the working copy on acceptance. -/
def paintCell (gi : Bool) (grid : Grid) (size : ℕ) (J H cx cy r : ℚ)
    (mode : DrawMode) (A : ℤ → ℤ → ℚ → Bool) (g : Grid) (y x : ℤ) : Grid :=
  if inShapeB cx cy r mode x y then
    if metropolisAccept (A x y) (calculateDeltaE gi grid size J H x y) then
      negCell g y x
    else g
  else g

/-- Embeds `Math.max(0, Math.floor(centerX - radius))` (line 168). -/
def paintXStart (cx r : ℚ) : ℤ := max 0 ⌊cx - r⌋

/-- Embeds `Math.min(size - 1, Math.ceil(centerX + radius))` (line 169). -/
def paintXEnd (size : ℕ) (cx r : ℚ) : ℤ := min ((size : ℤ) - 1) ⌈cx + r⌉

/-- Embeds `Math.max(0, Math.floor(centerY - radius))` (line 170). -/
def paintYStart (cy r : ℚ) : ℤ := max 0 ⌊cy - r⌋

/-- Embeds `Math.min(size - 1, Math.ceil(centerY + radius))` (line 171). -/
def paintYEnd (size : ℕ) (cy r : ℚ) : ℤ := min ((size : ℤ) - 1) ⌈cy + r⌉

/-- The inclusive integer range `[a, b]` iterated by a `for (i = a; i <= b;
i++)` loop (empty when `b < a`). -/
def intRange (a b : ℤ) : List ℤ :=
  (List.range (b + 1 - a).toNat).map fun n : ℕ => a + (n : ℤ)

/-- Embeds `flipSpinsInRadius` (lines 155-200): guard, clamped bounding box,
row-major double loop over the box writing accepted flips into the working
copy `newGrid` (seeded from `grid`, which starts as `grid` itself since
`grid.map(row => row.slice())` is an element-wise copy), which replaces the
lattice at the end. -/
def flipSpinsInRadius (gi : Bool) (grid : Grid) (size : ℕ) (J H : ℚ)
    (cx cy r : ℚ) (mode : DrawMode) (A : ℤ → ℤ → ℚ → Bool) : Grid :=
  if guardFails gi grid size then grid
  else
    (intRange (paintYStart cy r) (paintYEnd size cy r)).foldl
      (fun g yy =>
        (intRange (paintXStart cx r) (paintXEnd size cx r)).foldl
          (fun g2 xx => paintCell gi grid size J H cx cy r mode A g2 yy xx) g)
      grid

/-- Follows the spec's words (§4.3 Region perturbation), NOT the source:
"for each member cell evaluates `deltaE` against a mutable working copy
that is updated immediately after each accepted flip".  Identical to
`flipSpinsInRadius` except that `calculateDeltaE` is evaluated against the
working copy `g2` instead of the frozen pre-paint `grid`. -/
def flipSpinsInRadiusLiveSpec (gi : Bool) (grid : Grid) (size : ℕ) (J H : ℚ)
    (cx cy r : ℚ) (mode : DrawMode) (A : ℤ → ℤ → ℚ → Bool) : Grid :=
  if guardFails gi grid size then grid
  else
    (intRange (paintYStart cy r) (paintYEnd size cy r)).foldl
      (fun g yy =>
        (intRange (paintXStart cx r) (paintXEnd size cx r)).foldl
          (fun g2 xx => paintCell gi g2 size J H cx cy r mode A g2 yy xx) g)
      grid

/-- The body of the sweep loop for one trial (lines 215-228): sample the
site from the two draws, skip when the site is missing from the pre-sweep
`grid`, otherwise run the Metropolis test on `calculateDeltaE` of the
pre-sweep `grid` and negate the cell of the working copy. -/
def evolveStep (gi : Bool) (grid : Grid) (size : ℕ) (J H : ℚ)
    (rx ry : ℕ → ℚ) (A : ℕ → ℚ → Bool) (g : Grid) (i : ℕ) : Grid :=
  let x : ℤ := ⌊rx i * (size : ℚ)⌋
  let y : ℤ := ⌊ry i * (size : ℚ)⌋
  if (cell? grid y x).isNone then g
  else if metropolisAccept (A i) (calculateDeltaE gi grid size J H x y) then
    negCell g y x
  else g

/-- Embeds `evolveSystem` (lines 203-231): guard, then `size * size` candidate
trials folded over a working copy seeded from the pre-sweep `grid`; the
result replaces the lattice once at the end. -/
def evolveSystem (gi : Bool) (grid : Grid) (size : ℕ) (J H : ℚ)
    (rx ry : ℕ → ℚ) (A : ℕ → ℚ → Bool) : Grid :=
  if guardFails gi grid size then grid
  else (List.range (size * size)).foldl (evolveStep gi grid size J H rx ry A) grid

/-- Number of trials of one sweep that land on `(x, y)` and pass the
Metropolis test — all decided against the pre-sweep `grid`. -/
def evolveHits (gi : Bool) (grid : Grid) (size : ℕ) (J H : ℚ)
    (rx ry : ℕ → ℚ) (A : ℕ → ℚ → Bool) (x y : ℤ) : ℕ :=
  ((List.range (size * size)).filter fun i =>
    decide (⌊rx i * (size : ℚ)⌋ = x) && decide (⌊ry i * (size : ℚ)⌋ = y) &&
      metropolisAccept (A i) (calculateDeltaE gi grid size J H x y)).length

/-- Initial-pattern selector (`initialPattern` state). -/
inductive Pattern : Type
  | positive : Pattern
  | negative : Pattern
  | checkerboard : Pattern
  | random : Pattern
deriving DecidableEq

/-- Embeds `initializeGrid` (lines 51-91): build the fresh lattice for a pattern;
the random pattern turns the per-cell `Math.random() < 0.5` draws `r y x`
into spins. -/
def initializeGrid (size : ℕ) (pattern : Pattern) (r : ℕ → ℕ → ℚ) : Grid :=
  match pattern with
  | Pattern.positive => List.replicate size (List.replicate size 1)
  | Pattern.negative => List.replicate size (List.replicate size (-1))
  | Pattern.checkerboard =>
      (List.range size).map fun y =>
        (List.range size).map fun x => if (x + y) % 2 = 0 then 1 else -1
  | Pattern.random =>
      (List.range size).map fun y =>
        (List.range size).map fun x => if r y x < 1/2 then 1 else -1

/-- Embeds `grid.flat().reduce((sum, spin) => sum + spin, 0)` (line 114). -/
def sumSpins (g : Grid) : ℤ := (g.map List.sum).sum

/-- Embeds `(sumSpins / totalSpins) * 100` (lines 113-115). -/
def netMagnetization (g : Grid) (size : ℕ) : ℚ :=
  ((sumSpins g : ℚ) / ((size : ℚ) * (size : ℚ))) * 100

/-- The controller state relevant to the state-machine claims: the React
state variables of the component. -/
structure SimState where
  grid : Grid
  size : ℕ
  temperature : ℚ
  coupling : ℚ
  externalField : ℚ
  annealingRate : ℚ
  drawMode : DrawMode
  initialPattern : Pattern
  simulationSpeed : ℚ
  isPlaying : Bool
  magnetizationHistory : List ℚ
  gridInitialized : Bool

/-- Embeds `setSize(n)` as settled by React: when `n` differs from the current
size, re-rendering re-creates `initializeGrid` and fires the effect of
lines 97-101, which calls `setIsPlaying(false)` and rebuilds the lattice
(clearing the history, line 87); a `setSize` with the current value is a
no-op (React bails out on identical state). -/
def setSizeEvent (n : ℕ) (r : ℕ → ℕ → ℚ) (s : SimState) : SimState :=
  if n = s.size then s
  else
    { s with size := n, isPlaying := false,
             grid := initializeGrid n s.initialPattern r,
             magnetizationHistory := [], gridInitialized := true }

/-- A pattern button click (lines 612-615 etc.): `setInitialPattern(p);
initializeGrid(p)`.  When `p` differs from the current pattern the
re-render changes the identity of `initializeGrid`, so the effect of lines
97-101 (whose dependencies are `[size, initializeGrid]`) fires and calls
`setIsPlaying(false)`; when `p` is the current pattern only the direct
`initializeGrid(p)` call runs and the play state is untouched. -/
def setPatternEvent (p : Pattern) (r : ℕ → ℕ → ℚ) (s : SimState) : SimState :=
  if p = s.initialPattern then
    { s with grid := initializeGrid s.size p r,
             magnetizationHistory := [], gridInitialized := true }
  else
    { s with initialPattern := p, isPlaying := false,
             grid := initializeGrid s.size p r,
             magnetizationHistory := [], gridInitialized := true }

/-- Embeds `handleReset` (lines 382-394), as settled after the effects it
triggers: every parameter back to its default, playing stopped, history
cleared, and a fresh 30×30 random lattice (the size-change effect re-runs
`initializeGrid` once `size` is 30).  The magnetization sample appended by
the statistics effect after any grid commit is modelled separately. -/
def handleReset (r : ℕ → ℕ → ℚ) (s : SimState) : SimState :=
  { s with size := 30, temperature := 2, coupling := 1, externalField := 0,
           annealingRate := 0, drawMode := DrawMode.circle,
           initialPattern := Pattern.random, simulationSpeed := 100,
           isPlaying := false, magnetizationHistory := [],
           grid := initializeGrid 30 Pattern.random r,
           gridInitialized := true }

/-- Well-formed `N × N` lattice of ±1 spins. -/
def WellFormed (g : Grid) (N : ℕ) : Prop :=
  g.length = N ∧ (∀ j, j < N → (g.getD j []).length = N) ∧
    ∀ j, j < N → ∀ i, i < N →
      (g.getD j []).getD i 0 = 1 ∨ (g.getD j []).getD i 0 = -1

theorem jsIdx_eq_some_iff {α : Type} {l : List α} {i : ℤ} {a : α} :
    jsIdx l i = some a ↔ 0 ≤ i ∧ l.get? i.toNat = some a := by
  unfold jsIdx; split <;> simp_all

theorem getD_of_get? {α : Type} {l : List α} {n : ℕ} {a : α} (d : α)
    (h : l.get? n = some a) : l.getD n d = a := by
  rw [List.getD_eq_getElem?_getD, ← List.get?_eq_getElem?, h]; rfl

theorem lt_length_of_get? {α : Type} {l : List α} {n : ℕ} {a : α}
    (h : l.get? n = some a) : n < l.length := by
  by_contra hn
  rw [List.get?_eq_none.mpr (by omega)] at h
  exact absurd h (by simp)

theorem jsIdx_set {α : Type} (l : List α) (n : ℕ) (a : α) (j : ℤ) :
    jsIdx (l.set n a) j = if j = (n : ℤ) ∧ n < l.length then some a else jsIdx l j := by
  unfold jsIdx
  by_cases hj : 0 ≤ j
  · rw [if_pos hj, if_pos hj, List.get?_set]
    by_cases he : n = j.toNat
    · have hjn : j = (n : ℤ) := by omega
      subst hjn
      simp only [Int.toNat_natCast]
      rcases Nat.lt_or_ge n l.length with h | h
      · rw [List.get?_eq_get h]
        simp [h]
      · rw [List.get?_eq_none.mpr h]
        simp [Nat.not_lt.mpr h]
    · have hne : ¬(j = (n : ℤ) ∧ n < l.length) := by
        rintro ⟨rfl, _⟩; exact he (by omega)
      rw [if_neg he, if_neg hne]
  · have hne : ¬(j = (n : ℤ) ∧ n < l.length) := by
      rintro ⟨rfl, _⟩; omega
    rw [if_neg hj, if_neg hj, if_neg hne]

theorem cell?_negCell (g : Grid) (y x j i : ℤ) :
    cell? (negCell g y x) j i =
      if j = y ∧ i = x then (cell? g y x).map (fun s => -s) else cell? g j i := by
  unfold negCell
  cases hc : cell? g y x with
  | none =>
    by_cases h : j = y ∧ i = x
    · obtain ⟨rfl, rfl⟩ := h
      rw [if_pos ⟨rfl, rfl⟩, hc]; rfl
    · rw [if_neg h]
  | some s =>
    have hdec : 0 ≤ y ∧ ∃ row, g.get? y.toNat = some row ∧ jsIdx row x = some s := by
      unfold cell? at hc
      cases hg : jsIdx g y with
      | none => rw [hg] at hc; simp at hc
      | some row =>
        rw [hg] at hc
        obtain ⟨h0, hgg⟩ := jsIdx_eq_some_iff.mp hg
        exact ⟨h0, row, hgg, by simpa using hc⟩
    obtain ⟨hy0, row, hrow, hrx⟩ := hdec
    obtain ⟨hx0, hxx⟩ := jsIdx_eq_some_iff.mp hrx
    have hlen : y.toNat < g.length := lt_length_of_get? hrow
    have hxlen : x.toNat < row.length := lt_length_of_get? hxx
    have hgetD : g.getD y.toNat [] = row := getD_of_get? [] hrow
    have hyy : ((y.toNat : ℤ)) = y := Int.toNat_of_nonneg hy0
    have hxx2 : ((x.toNat : ℤ)) = x := Int.toNat_of_nonneg hx0
    rw [hgetD]
    unfold cell?
    rw [jsIdx_set]
    by_cases hjy : j = y
    · subst hjy
      rw [if_pos ⟨by omega, hlen⟩, Option.some_bind, jsIdx_set]
      by_cases hix : i = x
      · subst hix
        rw [if_pos ⟨by omega, hxlen⟩, if_pos ⟨rfl, rfl⟩]
        simp [hc]
      · rw [if_neg (by rintro ⟨rfl, _⟩; omega),
            if_neg (by rintro ⟨_, h2⟩; exact hix h2),
            jsIdx_eq_some_iff.mpr ⟨hy0, hrow⟩, Option.some_bind]
    · rw [if_neg (by rintro ⟨rfl, _⟩; omega), if_neg (by rintro ⟨h1, _⟩; exact hjy h1)]

theorem mem_intRange {a b i : ℤ} : i ∈ intRange a b ↔ a ≤ i ∧ i ≤ b := by
  unfold intRange
  constructor
  · intro h
    obtain ⟨n, hn, rfl⟩ := List.mem_map.mp h
    have := List.mem_range.mp hn
    omega
  · rintro ⟨h1, h2⟩
    exact List.mem_map.mpr ⟨(i - a).toNat, List.mem_range.mpr (by omega), by omega⟩

theorem nodup_intRange (a b : ℤ) : (intRange a b).Nodup := by
  unfold intRange
  apply List.Nodup.map _ (List.nodup_range _)
  intro m n h
  simp only [add_right_inj, Nat.cast_inj] at h
  exact h

/-- The flip decision of the paint loop for a cell: region membership and
the Metropolis test, both decided against the frozen pre-paint `grid`. -/
def paintFlips (gi : Bool) (grid : Grid) (size : ℕ) (J H cx cy r : ℚ)
    (mode : DrawMode) (A : ℤ → ℤ → ℚ → Bool) (y x : ℤ) : Bool :=
  inShapeB cx cy r mode x y &&
    metropolisAccept (A x y) (calculateDeltaE gi grid size J H x y)

theorem cell?_paintCell (gi : Bool) (grid : Grid) (size : ℕ) (J H cx cy r : ℚ)
    (mode : DrawMode) (A : ℤ → ℤ → ℚ → Bool) (g : Grid) (y x j i : ℤ) :
    cell? (paintCell gi grid size J H cx cy r mode A g y x) j i =
      if j = y ∧ i = x ∧ paintFlips gi grid size J H cx cy r mode A y x = true
      then (cell? g y x).map (fun s => -s) else cell? g j i := by
  unfold paintCell paintFlips
  by_cases hs : inShapeB cx cy r mode x y
  · rw [if_pos hs]
    by_cases hm : metropolisAccept (A x y) (calculateDeltaE gi grid size J H x y)
    · rw [if_pos hm, cell?_negCell]
      by_cases h : j = y ∧ i = x
      · rw [if_pos h, if_pos ⟨h.1, h.2, by simp [hs, hm]⟩]
      · rw [if_neg h, if_neg (by tauto)]
    · rw [if_neg hm, if_neg (by simp_all)]
  · rw [if_neg hs, if_neg (by simp_all)]

theorem cell?_paintFoldInner (gi : Bool) (grid : Grid) (size : ℕ)
    (J H cx cy r : ℚ) (mode : DrawMode) (A : ℤ → ℤ → ℚ → Bool) (yy : ℤ) :
    ∀ (xs : List ℤ), xs.Nodup → ∀ (g : Grid),
      (∀ z ∈ xs, cell? g yy z = cell? grid yy z) → ∀ j i,
      cell? (xs.foldl (fun g2 xx => paintCell gi grid size J H cx cy r mode A g2 yy xx) g) j i =
        if j = yy ∧ i ∈ xs ∧ paintFlips gi grid size J H cx cy r mode A yy i = true
        then (cell? grid yy i).map (fun s => -s) else cell? g j i := by
  intro xs
  induction xs with
  | nil => intro _ g _ j i; simp [List.foldl]
  | cons xx rest ih =>
    intro hnd g hagree j i
    have hxxnr : xx ∉ rest := (List.nodup_cons.mp hnd).1
    have hstep := cell?_paintCell gi grid size J H cx cy r mode A g yy xx
    rw [List.foldl_cons,
        ih (List.nodup_cons.mp hnd).2 _
          (fun z hz => by
            rw [hstep]
            rw [if_neg (by rintro ⟨_, rfl, _⟩; exact hxxnr hz)]
            exact hagree z (List.mem_cons_of_mem _ hz))]
    by_cases hj : j = yy
    · subst hj
      by_cases hir : i ∈ rest
      · by_cases hf : paintFlips gi grid size J H cx cy r mode A j i = true
        · rw [if_pos ⟨rfl, hir, hf⟩, if_pos ⟨rfl, List.mem_cons_of_mem _ hir, hf⟩]
        · rw [if_neg (by tauto), if_neg (by tauto), hstep,
              if_neg (by rintro ⟨_, rfl, _⟩; exact hxxnr hir)]
      · by_cases hix : i = xx
        · subst hix
          rw [if_neg (by tauto), hstep]
          by_cases hf : paintFlips gi grid size J H cx cy r mode A j i = true
          · rw [if_pos ⟨rfl, rfl, hf⟩, if_pos ⟨rfl, List.mem_cons_self _ _, hf⟩,
                hagree i (List.mem_cons_self _ _)]
          · rw [if_neg (by tauto), if_neg (by tauto)]
        · rw [if_neg (by tauto), if_neg (by simp_all), hstep, if_neg (by tauto)]
    · rw [if_neg (by tauto), if_neg (by tauto), hstep, if_neg (by tauto)]

theorem cell?_paintFoldOuter (gi : Bool) (grid : Grid) (size : ℕ)
    (J H cx cy r : ℚ) (mode : DrawMode) (A : ℤ → ℤ → ℚ → Bool)
    (xs : List ℤ) (hxsnd : xs.Nodup) :
    ∀ (ys : List ℤ), ys.Nodup → ∀ (g : Grid),
      (∀ z ∈ ys, ∀ i, cell? g z i = cell? grid z i) → ∀ j i,
      cell? (ys.foldl
        (fun g3 yy => xs.foldl
          (fun g2 xx => paintCell gi grid size J H cx cy r mode A g2 yy xx) g3) g) j i =
        if j ∈ ys ∧ i ∈ xs ∧ paintFlips gi grid size J H cx cy r mode A j i = true
        then (cell? grid j i).map (fun s => -s) else cell? g j i := by
  intro ys
  induction ys with
  | nil => intro _ g _ j i; simp [List.foldl]
  | cons yy rest ih =>
    intro hnd g hagree j i
    have hyynr : yy ∉ rest := (List.nodup_cons.mp hnd).1
    have hinner := cell?_paintFoldInner gi grid size J H cx cy r mode A yy xs hxsnd g
      (fun z _ => hagree yy (List.mem_cons_self _ _) z)
    rw [List.foldl_cons,
        ih (List.nodup_cons.mp hnd).2 _
          (fun z hz i2 => by
            rw [hinner z i2, if_neg (by rintro ⟨rfl, _⟩; exact hyynr hz)]
            exact hagree z (List.mem_cons_of_mem _ hz) i2)]
    by_cases hj : j = yy
    · subst hj
      rw [if_neg (by rintro ⟨hjr, _⟩; exact hyynr hjr), hinner j i]
      by_cases hix : i ∈ xs ∧ paintFlips gi grid size J H cx cy r mode A j i = true
      · rw [if_pos ⟨rfl, hix.1, hix.2⟩, if_pos ⟨List.mem_cons_self _ _, hix⟩]
      · rw [if_neg (by tauto), if_neg (by tauto)]
    · by_cases hjr : j ∈ rest
      · by_cases hix : i ∈ xs ∧ paintFlips gi grid size J H cx cy r mode A j i = true
        · rw [if_pos ⟨hjr, hix⟩, if_pos ⟨List.mem_cons_of_mem _ hjr, hix⟩]
        · rw [if_neg (by tauto), if_neg (by tauto), hinner j i, if_neg (by tauto)]
      · rw [if_neg (by tauto), if_neg (by simp_all), hinner j i, if_neg (by tauto)]

/-- Per-cell description of a whole paint operation: a cell is negated
exactly when it lies in the clamped bounding box, is inside the painted
shape, and passes the Metropolis test — all of it decided against the
pre-paint `grid`; every other cell keeps its pre-paint value. -/
theorem cell?_flipSpinsInRadius (gi : Bool) (grid : Grid) (size : ℕ)
    (J H cx cy r : ℚ) (mode : DrawMode) (A : ℤ → ℤ → ℚ → Bool)
    (hguard : guardFails gi grid size = false) (j i : ℤ) :
    cell? (flipSpinsInRadius gi grid size J H cx cy r mode A) j i =
      if paintYStart cy r ≤ j ∧ j ≤ paintYEnd size cy r ∧
         paintXStart cx r ≤ i ∧ i ≤ paintXEnd size cx r ∧
         paintFlips gi grid size J H cx cy r mode A j i = true
      then (cell? grid j i).map (fun s => -s) else cell? grid j i := by
  unfold flipSpinsInRadius
  rw [if_neg (by simp [hguard])]
  rw [cell?_paintFoldOuter gi grid size J H cx cy r mode A _
      (nodup_intRange _ _) _ (nodup_intRange _ _) grid (fun _ _ _ => rfl) j i]
  by_cases h : paintYStart cy r ≤ j ∧ j ≤ paintYEnd size cy r ∧
      paintXStart cx r ≤ i ∧ i ≤ paintXEnd size cx r ∧
      paintFlips gi grid size J H cx cy r mode A j i = true
  · obtain ⟨h1, h2, h3, h4, h5⟩ := h
    rw [if_pos ⟨mem_intRange.mpr ⟨h1, h2⟩, mem_intRange.mpr ⟨h3, h4⟩, h5⟩,
        if_pos ⟨h1, h2, h3, h4, h5⟩]
  · rw [if_neg (by
        rintro ⟨hm1, hm2, hm3⟩
        exact h ⟨(mem_intRange.mp hm1).1, (mem_intRange.mp hm1).2,
          (mem_intRange.mp hm2).1, (mem_intRange.mp hm2).2, hm3⟩), if_neg h]

theorem negPowStep (n : ℕ) (t : ℤ) : (-1 : ℤ) ^ n * (-t) = (-1) ^ (n + 1) * t := by
  rw [pow_succ]; ring

theorem cell?_evolveStep (gi : Bool) (grid : Grid) (size : ℕ) (J H : ℚ)
    (rx ry : ℕ → ℚ) (A : ℕ → ℚ → Bool) (g : Grid) (k : ℕ) (j i : ℤ) :
    cell? (evolveStep gi grid size J H rx ry A g k) j i =
      if j = ⌊ry k * (size : ℚ)⌋ ∧ i = ⌊rx k * (size : ℚ)⌋ ∧
         (cell? grid ⌊ry k * (size : ℚ)⌋ ⌊rx k * (size : ℚ)⌋).isSome = true ∧
         metropolisAccept (A k)
           (calculateDeltaE gi grid size J H ⌊rx k * (size : ℚ)⌋ ⌊ry k * (size : ℚ)⌋) = true
      then (cell? g j i).map (fun s => -s) else cell? g j i := by
  simp only [evolveStep]
  by_cases hn : (cell? grid ⌊ry k * (size : ℚ)⌋ ⌊rx k * (size : ℚ)⌋).isNone = true
  · have hn2 : cell? grid ⌊ry k * (size : ℚ)⌋ ⌊rx k * (size : ℚ)⌋ = none :=
      Option.isNone_iff_eq_none.mp hn
    rw [if_pos hn, if_neg (by rintro ⟨_, _, hs, _⟩; rw [hn2] at hs; simp at hs)]
  · rw [if_neg hn]
    have hsome : (cell? grid ⌊ry k * (size : ℚ)⌋ ⌊rx k * (size : ℚ)⌋).isSome = true := by
      rcases hopt : cell? grid ⌊ry k * (size : ℚ)⌋ ⌊rx k * (size : ℚ)⌋ with _ | v
      · exact absurd (by simp [hopt]) hn
      · simp
    by_cases ha : metropolisAccept (A k)
        (calculateDeltaE gi grid size J H ⌊rx k * (size : ℚ)⌋ ⌊ry k * (size : ℚ)⌋) = true
    · rw [if_pos ha, cell?_negCell]
      by_cases hji : j = ⌊ry k * (size : ℚ)⌋ ∧ i = ⌊rx k * (size : ℚ)⌋
      · obtain ⟨rfl, rfl⟩ := hji
        rw [if_pos ⟨rfl, rfl⟩, if_pos ⟨rfl, rfl, hsome, ha⟩]
      · rw [if_neg hji, if_neg (by tauto)]
    · rw [if_neg ha, if_neg (by tauto)]

theorem cell?_evolveFold (gi : Bool) (grid : Grid) (size : ℕ) (J H : ℚ)
    (rx ry : ℕ → ℚ) (A : ℕ → ℚ → Bool) :
    ∀ (L : List ℕ) (g : Grid),
      (∀ y x : ℤ, (cell? g y x).isSome = (cell? grid y x).isSome) → ∀ j i,
      cell? (L.foldl (evolveStep gi grid size J H rx ry A) g) j i =
        (cell? g j i).map (fun t =>
          (-1) ^ ((L.filter fun k =>
            decide (⌊rx k * (size : ℚ)⌋ = i) && decide (⌊ry k * (size : ℚ)⌋ = j) &&
              metropolisAccept (A k) (calculateDeltaE gi grid size J H i j)).length) * t) := by
  intro L
  induction L with
  | nil =>
    intro g _ j i
    rcases hc : cell? g j i with _ | t <;> simp [hc]
  | cons k L ih =>
    intro g hinv j i
    have hstep := cell?_evolveStep gi grid size J H rx ry A g k
    have hinv1 : ∀ y x : ℤ,
        (cell? (evolveStep gi grid size J H rx ry A g k) y x).isSome =
          (cell? g y x).isSome := by
      intro y x
      rw [hstep y x]
      split
      · cases cell? g y x <;> simp
      · rfl
    rw [List.foldl_cons, ih _ (fun y x => (hinv1 y x).trans (hinv y x)) j i,
        hstep j i, List.filter_cons]
    by_cases hgr : (cell? grid j i).isSome = true
    · by_cases hm : j = ⌊ry k * (size : ℚ)⌋ ∧ i = ⌊rx k * (size : ℚ)⌋
      · obtain ⟨hj, hi⟩ := hm
        subst hj
        subst hi
        by_cases ha : metropolisAccept (A k)
            (calculateDeltaE gi grid size J H ⌊rx k * (size : ℚ)⌋ ⌊ry k * (size : ℚ)⌋) = true
        · rw [if_pos ⟨rfl, rfl, hgr, ha⟩, if_pos (by simp [ha])]
          rcases hg : cell? g ⌊ry k * (size : ℚ)⌋ ⌊rx k * (size : ℚ)⌋ with _ | t
          · simp [hg]
          · simp only [hg, Option.map_some', List.length_cons]
            exact congrArg some (negPowStep _ _)
        · rw [if_neg (by rintro ⟨_, _, _, hacc⟩; exact ha hacc), if_neg (by simp [ha])]
      · rw [if_neg (by rintro ⟨h1, h2, _, _⟩; exact hm ⟨h1, h2⟩),
            if_neg (by
              simp only [Bool.and_eq_true, decide_eq_true_eq]
              rintro ⟨⟨h1, h2⟩, _⟩
              exact hm ⟨h2.symm, h1.symm⟩)]
    · have hgnone : cell? g j i = none := by
        have hx := hinv j i
        rcases hg : cell? g j i with _ | t
        · rfl
        · rw [hg] at hx; simp at hx; simp [hx] at hgr
      rw [hgnone]
      split <;> rfl

/-- Per-cell description of one full sweep: the final value of a cell is its
pre-sweep value negated once per accepted trial that landed on it, where
every trial's Metropolis test is evaluated against the frozen pre-sweep
`grid`. -/
theorem cell?_evolveSystem (gi : Bool) (grid : Grid) (size : ℕ) (J H : ℚ)
    (rx ry : ℕ → ℚ) (A : ℕ → ℚ → Bool)
    (hguard : guardFails gi grid size = false) (j i : ℤ) :
    cell? (evolveSystem gi grid size J H rx ry A) j i =
      (cell? grid j i).map (fun t =>
        (-1) ^ (evolveHits gi grid size J H rx ry A i j) * t) := by
  unfold evolveSystem evolveHits
  rw [if_neg (by simp [hguard])]
  exact cell?_evolveFold gi grid size J H rx ry A _ grid (fun _ _ => rfl) j i

theorem get?_eq_some_getD {α : Type} (l : List α) (n : ℕ) (d : α)
    (h : n < l.length) : l.get? n = some (l.getD n d) := by
  rcases hq : l.get? n with _ | v
  · have := List.get?_eq_none.mp hq
    omega
  · rw [getD_of_get? d hq]

theorem guardFails_false (gi : Bool) (g : Grid) (N : ℕ) (hgi : gi = true)
    (hN : 0 < N) (hlen : g.length = N) (hrow : (g.getD 0 []).length = N) :
    guardFails gi g N = false := by
  subst hgi
  have hg0 : g.get? 0 = some (g.getD 0 []) := get?_eq_some_getD g 0 [] (by omega)
  have h0 : jsIdx g 0 = some (g.getD 0 []) := by
    unfold jsIdx; rw [if_pos le_rfl]; exact hg0
  unfold guardFails
  rw [h0, show ((some (g.getD 0 [])).getD ([] : List ℤ)) = g.getD 0 [] from rfl,
      hrow, hlen]
  simp
  omega

theorem WellFormed_guardFails (g : Grid) (N : ℕ) (hWF : WellFormed g N)
    (hN : 0 < N) : guardFails true g N = false :=
  guardFails_false true g N rfl hN hWF.1 (hWF.2.1 0 hN)

/-- Under `WellFormed`, in-range cells exist and hold the `getD` value. -/
theorem cell?_of_WellFormed {g : Grid} {N : ℕ} (hWF : WellFormed g N)
    {y x : ℤ} (hy0 : 0 ≤ y) (hyN : y < N) (hx0 : 0 ≤ x) (hxN : x < N) :
    cell? g y x = some ((g.getD y.toNat []).getD x.toNat 0) := by
  obtain ⟨hlen, hrows, _⟩ := hWF
  have hrowlen : (g.getD y.toNat []).length = N := hrows y.toNat (by omega)
  have hg : g.get? y.toNat = some (g.getD y.toNat []) :=
    get?_eq_some_getD g y.toNat [] (by omega)
  have hr : (g.getD y.toNat []).get? x.toNat =
      some ((g.getD y.toNat []).getD x.toNat 0) :=
    get?_eq_some_getD _ x.toNat 0 (by omega)
  unfold cell?
  rw [jsIdx_eq_some_iff.mpr ⟨hy0, hg⟩, Option.some_bind,
      jsIdx_eq_some_iff.mpr ⟨hx0, hr⟩]

theorem getD_set {α : Type} (l : List α) (m : ℕ) (a : α) (j : ℕ) (d : α) :
    (l.set m a).getD j d = if m = j ∧ j < l.length then a else l.getD j d := by
  rw [List.getD_eq_getElem?_getD, ← List.get?_eq_getElem?, List.get?_set,
      List.getD_eq_getElem?_getD, ← List.get?_eq_getElem?]
  by_cases h : m = j
  · subst h
    rcases Nat.lt_or_ge m l.length with hl | hl
    · rw [if_pos rfl, if_pos ⟨rfl, hl⟩, get?_eq_some_getD l m d hl]
      rfl
    · rw [if_pos rfl, if_neg (by omega), List.get?_eq_none.mpr hl]
      rfl
  · rw [if_neg h, if_neg (by tauto)]

theorem WellFormed_negCell {g : Grid} {N : ℕ} (hWF : WellFormed g N) (y x : ℤ) :
    WellFormed (negCell g y x) N := by
  obtain ⟨hlen, hrows, hvals⟩ := hWF
  rcases hc : cell? g y x with _ | s
  · have hng : negCell g y x = g := by simp only [negCell, hc]
    rw [hng]
    exact ⟨hlen, hrows, hvals⟩
  · have hdec : 0 ≤ y ∧ ∃ row, g.get? y.toNat = some row ∧ 0 ≤ x ∧
        row.get? x.toNat = some s := by
      unfold cell? at hc
      rcases hg : jsIdx g y with _ | row
      · rw [hg] at hc; simp at hc
      · rw [hg] at hc
        obtain ⟨h0, hgg⟩ := jsIdx_eq_some_iff.mp hg
        obtain ⟨hx0, hxx⟩ := jsIdx_eq_some_iff.mp (by simpa using hc)
        exact ⟨h0, row, hgg, hx0, hxx⟩
    obtain ⟨hy0, row, hrow, hx0, hxx⟩ := hdec
    have hylen : y.toNat < N := by have := lt_length_of_get? hrow; omega
    have hgetD : g.getD y.toNat [] = row := getD_of_get? [] hrow
    have hrowN : row.length = N := by rw [← hgetD]; exact hrows y.toNat hylen
    have hxlen : x.toNat < N := by have := lt_length_of_get? hxx; omega
    have hs : s = row.getD x.toNat 0 := (getD_of_get? 0 hxx).symm
    have hng : negCell g y x = g.set y.toNat (row.set x.toNat (-s)) := by
      simp only [negCell, hc, hgetD]
    rw [hng]
    refine ⟨by rw [List.length_set]; exact hlen, ?_, ?_⟩
    · intro j hj
      rw [getD_set]
      by_cases hc1 : y.toNat = j ∧ j < g.length
      · rw [if_pos hc1, List.length_set]
        exact hrowN
      · rw [if_neg hc1]
        exact hrows j hj
    · intro j hj i hi
      rw [getD_set]
      by_cases hc1 : y.toNat = j ∧ j < g.length
      · rw [if_pos hc1, getD_set]
        by_cases hc2 : x.toNat = i ∧ i < row.length
        · rw [if_pos hc2]
          have hv := hvals y.toNat hylen x.toNat hxlen
          rw [hgetD, ← hs] at hv
          rcases hv with h1 | h1 <;> rw [h1] <;> norm_num
        · rw [if_neg hc2]
          obtain ⟨hj1, _⟩ := hc1
          subst hj1
          have := hvals y.toNat hylen i hi
          rw [hgetD] at this
          exact this
      · rw [if_neg hc1]
        exact hvals j hj i hi

theorem WellFormed_foldl {α : Type} {N : ℕ} (f : Grid → α → Grid)
    (hf : ∀ g a, WellFormed g N → WellFormed (f g a) N) :
    ∀ (L : List α) (g : Grid), WellFormed g N → WellFormed (L.foldl f g) N := by
  intro L
  induction L with
  | nil => intro g hg; exact hg
  | cons a L ih => intro g hg; exact ih _ (hf g a hg)

theorem WellFormed_evolveSystem (gi : Bool) (grid : Grid) (size : ℕ) (J H : ℚ)
    (rx ry : ℕ → ℚ) (A : ℕ → ℚ → Bool) (hWF : WellFormed grid size) :
    WellFormed (evolveSystem gi grid size J H rx ry A) size := by
  unfold evolveSystem
  split
  · exact hWF
  · refine WellFormed_foldl _ ?_ _ grid hWF
    intro g k hg
    simp only [evolveStep]
    split
    · exact hg
    · split
      · exact WellFormed_negCell hg _ _
      · exact hg

theorem WellFormed_flipSpinsInRadius (gi : Bool) (grid : Grid) (size : ℕ)
    (J H cx cy r : ℚ) (mode : DrawMode) (A : ℤ → ℤ → ℚ → Bool)
    (hWF : WellFormed grid size) :
    WellFormed (flipSpinsInRadius gi grid size J H cx cy r mode A) size := by
  unfold flipSpinsInRadius
  split
  · exact hWF
  · refine WellFormed_foldl _ ?_ _ grid hWF
    intro g yy hg
    refine WellFormed_foldl _ ?_ _ g hg
    intro g2 xx hg2
    unfold paintCell
    split
    · split
      · exact WellFormed_negCell hg2 _ _
      · exact hg2
    · exact hg2

theorem getD_replicate {α : Type} (n : ℕ) (a : α) (j : ℕ) (d : α) (h : j < n) :
    (List.replicate n a).getD j d = a :=
  getD_of_get? d (by
    rw [List.get?_eq_getElem?, List.getElem?_replicate]
    simp [h])

theorem getD_range_map {α : Type} (N : ℕ) (f : ℕ → α) (j : ℕ) (d : α) (h : j < N) :
    ((List.range N).map f).getD j d = f j :=
  getD_of_get? d (by rw [List.get?_map, List.get?_range h]; rfl)

theorem WellFormed_initializeGrid (N : ℕ) (p : Pattern) (r : ℕ → ℕ → ℚ) :
    WellFormed (initializeGrid N p r) N := by
  cases p
  · exact ⟨by simp [initializeGrid], fun j hj => by
      simp only [initializeGrid]; rw [getD_replicate _ _ _ _ hj]; simp,
      fun j hj i hi => by
        simp only [initializeGrid]
        rw [getD_replicate _ _ _ _ hj, getD_replicate _ _ _ _ hi]
        left; rfl⟩
  · exact ⟨by simp [initializeGrid], fun j hj => by
      simp only [initializeGrid]; rw [getD_replicate _ _ _ _ hj]; simp,
      fun j hj i hi => by
        simp only [initializeGrid]
        rw [getD_replicate _ _ _ _ hj, getD_replicate _ _ _ _ hi]
        right; rfl⟩
  · refine ⟨by simp [initializeGrid], fun j hj => by
      simp only [initializeGrid]; rw [getD_range_map _ _ _ _ hj]; simp, ?_⟩
    intro j hj i hi
    simp only [initializeGrid]
    rw [getD_range_map _ _ _ _ hj, getD_range_map _ _ _ _ hi]
    split
    · left; rfl
    · right; rfl
  · refine ⟨by simp [initializeGrid], fun j hj => by
      simp only [initializeGrid]; rw [getD_range_map _ _ _ _ hj]; simp, ?_⟩
    intro j hj i hi
    simp only [initializeGrid]
    rw [getD_range_map _ _ _ _ hj, getD_range_map _ _ _ _ hi]
    split
    · left; rfl
    · right; rfl

/-- The spin at a cell, read like `grid[y][x]` with a `0` default. -/
def spinAt (g : Grid) (y x : ℤ) : ℤ := (cell? g y x).getD 0

theorem calculateDeltaE_formula (g : Grid) (N : ℕ) (J H : ℚ)
    (hWF : WellFormed g N) (hN : 0 < N) (x y : ℤ)
    (hx0 : 0 ≤ x) (hxN : x < N) (hy0 : 0 ≤ y) (hyN : y < N) :
    calculateDeltaE true g N J H x y =
      2 * J * (spinAt g y x : ℚ) *
        ((spinAt g (Int.tmod (y - 1 + N) N) x + spinAt g (Int.tmod (y + 1) N) x +
          spinAt g y (Int.tmod (x - 1 + N) N) + spinAt g y (Int.tmod (x + 1) N) : ℤ) : ℚ) +
      2 * H * (spinAt g y x : ℚ) := by
  have hcell := cell?_of_WellFormed hWF hy0 hyN hx0 hxN
  have hguard := WellFormed_guardFails g N hWF hN
  have hm1 : 0 ≤ Int.tmod (y - 1 + N) N ∧ Int.tmod (y - 1 + N) N < N :=
    ⟨Int.tmod_nonneg _ (by omega), Int.tmod_lt_of_pos _ (by omega)⟩
  have hm2 : 0 ≤ Int.tmod (y + 1) N ∧ Int.tmod (y + 1) N < N :=
    ⟨Int.tmod_nonneg _ (by omega), Int.tmod_lt_of_pos _ (by omega)⟩
  have hm3 : 0 ≤ Int.tmod (x - 1 + N) N ∧ Int.tmod (x - 1 + N) N < N :=
    ⟨Int.tmod_nonneg _ (by omega), Int.tmod_lt_of_pos _ (by omega)⟩
  have hm4 : 0 ≤ Int.tmod (x + 1) N ∧ Int.tmod (x + 1) N < N :=
    ⟨Int.tmod_nonneg _ (by omega), Int.tmod_lt_of_pos _ (by omega)⟩
  have hc1 := cell?_of_WellFormed hWF hm1.1 hm1.2 hx0 hxN
  have hc2 := cell?_of_WellFormed hWF hm2.1 hm2.2 hx0 hxN
  have hc3 := cell?_of_WellFormed hWF hy0 hyN hm3.1 hm3.2
  have hc4 := cell?_of_WellFormed hWF hy0 hyN hm4.1 hm4.2
  have hjs : (jsIdx g y).isNone = false := by
    unfold cell? at hcell
    rcases hq : jsIdx g y with _ | row
    · rw [hq] at hcell; simp at hcell
    · rfl
  simp only [calculateDeltaE, spinAt]
  rw [if_neg (by simp [hguard, hjs, hcell])]
  simp only [List.foldl_cons, List.foldl_nil, hcell, hc1, hc2, hc3, hc4]
  simp only [Option.isSome_some, if_pos, Option.getD_some]
  push_cast
  ring

theorem sum_bound_of_mem (l : List ℤ) (c : ℤ) (h : ∀ v ∈ l, -c ≤ v ∧ v ≤ c) :
    -((l.length : ℤ) * c) ≤ l.sum ∧ l.sum ≤ (l.length : ℤ) * c := by
  induction l with
  | nil => simp
  | cons a t ih =>
    have ha := h a (List.mem_cons_self _ _)
    have ht := ih fun v hv => h v (List.mem_cons_of_mem _ hv)
    simp only [List.sum_cons, List.length_cons]
    push_cast
    constructor <;> nlinarith [ht.1, ht.2, ha.1, ha.2]

theorem WellFormed_row_mem {g : Grid} {N : ℕ} (hWF : WellFormed g N)
    {row : List ℤ} (h : row ∈ g) :
    row.length = N ∧ ∀ v ∈ row, v = 1 ∨ v = -1 := by
  obtain ⟨hlen, hrows, hvals⟩ := hWF
  obtain ⟨n, hn⟩ := List.get?_of_mem h
  have hnN : n < N := by have := lt_length_of_get? hn; omega
  have hrowD : g.getD n [] = row := getD_of_get? [] hn
  refine ⟨by rw [← hrowD]; exact hrows n hnN, ?_⟩
  intro v hv
  obtain ⟨m, hm⟩ := List.get?_of_mem hv
  have hmN : m < N := by
    have h1 := lt_length_of_get? hm
    have h2 := hrows n hnN
    rw [hrowD] at h2; omega
  have := hvals n hnN m hmN
  rw [hrowD, getD_of_get? 0 hm] at this
  exact this

theorem sumSpins_bounds (g : Grid) (N : ℕ) (hWF : WellFormed g N) :
    -((N : ℤ) * N) ≤ sumSpins g ∧ sumSpins g ≤ (N : ℤ) * N := by
  have hb := sum_bound_of_mem (g.map List.sum) (N : ℤ) (by
    intro v hv
    obtain ⟨row, hrow, rfl⟩ := List.mem_map.mp hv
    obtain ⟨hrl, hrv⟩ := WellFormed_row_mem hWF hrow
    have := sum_bound_of_mem row 1 (by
      intro w hw
      rcases hrv w hw with h1 | h1 <;> rw [h1] <;> norm_num)
    rw [hrl] at this
    constructor <;> linarith [this.1, this.2])
  rw [List.length_map, hWF.1] at hb
  exact hb

theorem netMagnetization_bounds (g : Grid) (N : ℕ) (hWF : WellFormed g N)
    (hN : 0 < N) :
    -100 ≤ netMagnetization g N ∧ netMagnetization g N ≤ 100 := by
  have hb := sumSpins_bounds g N hWF
  have hD : (0 : ℚ) < (N : ℚ) * (N : ℚ) := by positivity
  have h1 : (sumSpins g : ℚ) ≤ (N : ℚ) * (N : ℚ) := by exact_mod_cast hb.2
  have h2 : -((N : ℚ) * (N : ℚ)) ≤ (sumSpins g : ℚ) := by exact_mod_cast hb.1
  unfold netMagnetization
  have hq1 : (sumSpins g : ℚ) / ((N : ℚ) * (N : ℚ)) ≤ 1 := by
    rw [div_le_one hD]; exact h1
  have hq2 : -1 ≤ (sumSpins g : ℚ) / ((N : ℚ) * (N : ℚ)) := by
    rw [le_div_iff hD]; linarith
  constructor <;> nlinarith [hq1, hq2]

theorem sumSpins_positive (N : ℕ) (r : ℕ → ℕ → ℚ) :
    sumSpins (initializeGrid N Pattern.positive r) = (N : ℤ) * N := by
  simp [sumSpins, initializeGrid, List.map_replicate, List.sum_replicate,
    nsmul_eq_mul]

theorem sumSpins_negative (N : ℕ) (r : ℕ → ℕ → ℚ) :
    sumSpins (initializeGrid N Pattern.negative r) = -((N : ℤ) * N) := by
  simp [sumSpins, initializeGrid, List.map_replicate, List.sum_replicate,
    nsmul_eq_mul]

theorem cbRowSum (N y : ℕ) :
    ((List.range N).map fun x => if (x + y) % 2 = 0 then (1 : ℤ) else -1).sum =
      if N % 2 = 0 then 0 else if y % 2 = 0 then 1 else -1 := by
  induction N with
  | zero => simp
  | succ n ih =>
    rw [List.range_succ, List.map_append, List.sum_append, ih]
    simp only [List.map_cons, List.map_nil, List.sum_cons, List.sum_nil]
    split_ifs <;> omega

theorem altColSum (N : ℕ) :
    ((List.range N).map fun y => if y % 2 = 0 then (1 : ℤ) else -1).sum =
      if N % 2 = 0 then 0 else 1 := by
  induction N with
  | zero => simp
  | succ n ih =>
    rw [List.range_succ, List.map_append, List.sum_append, ih]
    simp only [List.map_cons, List.map_nil, List.sum_cons, List.sum_nil]
    split_ifs <;> omega

theorem sumSpins_checkerboard (N : ℕ) (r : ℕ → ℕ → ℚ) :
    sumSpins (initializeGrid N Pattern.checkerboard r) =
      if N % 2 = 0 then 0 else 1 := by
  unfold sumSpins initializeGrid
  rw [List.map_map]
  have hcongr : ((List.range N).map
      (List.sum ∘ fun y => (List.range N).map fun x =>
        if (x + y) % 2 = 0 then (1 : ℤ) else -1)) =
      (List.range N).map fun y =>
        if N % 2 = 0 then 0 else if y % 2 = 0 then (1 : ℤ) else -1 := by
    apply List.map_congr_left
    intro y _
    exact cbRowSum N y
  rw [hcongr]
  by_cases hN : N % 2 = 0
  · simp [hN]
  · simp only [hN, if_false]
    rw [altColSum N]
    simp [hN]

/-- The 4×4 lattice used for concrete instantiations below. -/
def grid0 : Grid := [[1,1,1,-1],[-1,1,1,1],[1,1,1,1],[-1,-1,1,1]]

/-- An oracle that rejects every candidate with positive `deltaE` (the
draw never beats the Boltzmann factor). -/
def rejectOracle : ℤ → ℤ → ℚ → Bool := fun _ _ _ => false

/-- A concrete controller state used for concrete instantiations below. -/
def simState0 : SimState :=
  { grid := grid0, size := 4, temperature := 2, coupling := 1,
    externalField := 0, annealingRate := 0, drawMode := DrawMode.circle,
    initialPattern := Pattern.random, simulationSpeed := 100,
    isPlaying := true, magnetizationHistory := [], gridInitialized := true }

theorem paintRangeY : intRange (paintYStart 0 1) (paintYEnd 4 0 1) = [0, 1] := by
  norm_num [intRange, paintYStart, paintYEnd]
  decide

theorem paintRangeX : intRange (paintXStart 1 1) (paintXEnd 4 1 1) = [0, 1, 2] := by
  norm_num [intRange, paintXStart, paintXEnd]
  decide

/-- Claim C1, counterexample: on a concrete 4×4 lattice, painting a square
of radius 1 centred at `(1, 0)` with an oracle that rejects every
energy-raising candidate, the source's `flipSpinsInRadius` (which evaluates
every `deltaE` against the frozen pre-paint lattice) produces a different
lattice than the spec-described variant whose `deltaE` reads the mutable
working copy: in the code, cell `(1, 0)` has pre-paint `deltaE = 4 > 0` and
is not flipped, while in the spec's reading the earlier flip of `(0, 0)`
lowers its `deltaE` to `0` and it flips. -/
theorem claim_C1_counterexample :
    flipSpinsInRadius true grid0 4 1 0 1 0 1 DrawMode.square rejectOracle ≠
      flipSpinsInRadiusLiveSpec true grid0 4 1 0 1 0 1 DrawMode.square rejectOracle := by
  have h1 : flipSpinsInRadius true grid0 4 1 0 1 0 1 DrawMode.square rejectOracle =
      [[-1,1,1,-1],[1,1,1,1],[1,1,1,1],[-1,-1,1,1]] := by
    have e1 : paintCell true grid0 4 1 0 1 0 1 DrawMode.square rejectOracle
        grid0 0 0 = [[-1,1,1,-1],[-1,1,1,1],[1,1,1,1],[-1,-1,1,1]] := by
      norm_num [paintCell, inShapeB, metropolisAccept, calculateDeltaE, guardFails,
      negCell, cell?, jsIdx, grid0, rejectOracle, List.foldl,
      show Int.tmod 1 4 = 1 by decide, show Int.tmod 2 4 = 2 by decide,
      show Int.tmod 3 4 = 3 by decide, show Int.tmod 4 4 = 0 by decide,
      show Int.tmod 5 4 = 1 by decide,
      show Int.toNat 0 = 0 by decide, show Int.toNat 1 = 1 by decide,
      show Int.toNat 2 = 2 by decide, show Int.toNat 3 = 3 by decide]
    have e2 : paintCell true grid0 4 1 0 1 0 1 DrawMode.square rejectOracle
        [[-1,1,1,-1],[-1,1,1,1],[1,1,1,1],[-1,-1,1,1]] 0 1 = [[-1,1,1,-1],[-1,1,1,1],[1,1,1,1],[-1,-1,1,1]] := by
      norm_num [paintCell, inShapeB, metropolisAccept, calculateDeltaE, guardFails,
      negCell, cell?, jsIdx, grid0, rejectOracle, List.foldl,
      show Int.tmod 1 4 = 1 by decide, show Int.tmod 2 4 = 2 by decide,
      show Int.tmod 3 4 = 3 by decide, show Int.tmod 4 4 = 0 by decide,
      show Int.tmod 5 4 = 1 by decide,
      show Int.toNat 0 = 0 by decide, show Int.toNat 1 = 1 by decide,
      show Int.toNat 2 = 2 by decide, show Int.toNat 3 = 3 by decide]
    have e3 : paintCell true grid0 4 1 0 1 0 1 DrawMode.square rejectOracle
        [[-1,1,1,-1],[-1,1,1,1],[1,1,1,1],[-1,-1,1,1]] 0 2 = [[-1,1,1,-1],[-1,1,1,1],[1,1,1,1],[-1,-1,1,1]] := by
      norm_num [paintCell, inShapeB, metropolisAccept, calculateDeltaE, guardFails,
      negCell, cell?, jsIdx, grid0, rejectOracle, List.foldl,
      show Int.tmod 1 4 = 1 by decide, show Int.tmod 2 4 = 2 by decide,
      show Int.tmod 3 4 = 3 by decide, show Int.tmod 4 4 = 0 by decide,
      show Int.tmod 5 4 = 1 by decide,
      show Int.toNat 0 = 0 by decide, show Int.toNat 1 = 1 by decide,
      show Int.toNat 2 = 2 by decide, show Int.toNat 3 = 3 by decide]
    have e4 : paintCell true grid0 4 1 0 1 0 1 DrawMode.square rejectOracle
        [[-1,1,1,-1],[-1,1,1,1],[1,1,1,1],[-1,-1,1,1]] 1 0 = [[-1,1,1,-1],[1,1,1,1],[1,1,1,1],[-1,-1,1,1]] := by
      norm_num [paintCell, inShapeB, metropolisAccept, calculateDeltaE, guardFails,
      negCell, cell?, jsIdx, grid0, rejectOracle, List.foldl,
      show Int.tmod 1 4 = 1 by decide, show Int.tmod 2 4 = 2 by decide,
      show Int.tmod 3 4 = 3 by decide, show Int.tmod 4 4 = 0 by decide,
      show Int.tmod 5 4 = 1 by decide,
      show Int.toNat 0 = 0 by decide, show Int.toNat 1 = 1 by decide,
      show Int.toNat 2 = 2 by decide, show Int.toNat 3 = 3 by decide]
    have e5 : paintCell true grid0 4 1 0 1 0 1 DrawMode.square rejectOracle
        [[-1,1,1,-1],[1,1,1,1],[1,1,1,1],[-1,-1,1,1]] 1 1 = [[-1,1,1,-1],[1,1,1,1],[1,1,1,1],[-1,-1,1,1]] := by
      norm_num [paintCell, inShapeB, metropolisAccept, calculateDeltaE, guardFails,
      negCell, cell?, jsIdx, grid0, rejectOracle, List.foldl,
      show Int.tmod 1 4 = 1 by decide, show Int.tmod 2 4 = 2 by decide,
      show Int.tmod 3 4 = 3 by decide, show Int.tmod 4 4 = 0 by decide,
      show Int.tmod 5 4 = 1 by decide,
      show Int.toNat 0 = 0 by decide, show Int.toNat 1 = 1 by decide,
      show Int.toNat 2 = 2 by decide, show Int.toNat 3 = 3 by decide]
    have e6 : paintCell true grid0 4 1 0 1 0 1 DrawMode.square rejectOracle
        [[-1,1,1,-1],[1,1,1,1],[1,1,1,1],[-1,-1,1,1]] 1 2 = [[-1,1,1,-1],[1,1,1,1],[1,1,1,1],[-1,-1,1,1]] := by
      norm_num [paintCell, inShapeB, metropolisAccept, calculateDeltaE, guardFails,
      negCell, cell?, jsIdx, grid0, rejectOracle, List.foldl,
      show Int.tmod 1 4 = 1 by decide, show Int.tmod 2 4 = 2 by decide,
      show Int.tmod 3 4 = 3 by decide, show Int.tmod 4 4 = 0 by decide,
      show Int.tmod 5 4 = 1 by decide,
      show Int.toNat 0 = 0 by decide, show Int.toNat 1 = 1 by decide,
      show Int.toNat 2 = 2 by decide, show Int.toNat 3 = 3 by decide]
    unfold flipSpinsInRadius
    rw [if_neg (by decide), paintRangeY, paintRangeX]
    simp only [List.foldl_cons, List.foldl_nil]
    rw [e1, e2, e3, e4, e5, e6]
  have h2 : flipSpinsInRadiusLiveSpec true grid0 4 1 0 1 0 1 DrawMode.square rejectOracle =
      [[-1,-1,-1,-1],[1,1,1,1],[1,1,1,1],[-1,-1,1,1]] := by
    have l1 : paintCell true grid0 4 1 0 1 0 1 DrawMode.square rejectOracle
        grid0 0 0 = [[-1,1,1,-1],[-1,1,1,1],[1,1,1,1],[-1,-1,1,1]] := by
      norm_num [paintCell, inShapeB, metropolisAccept, calculateDeltaE, guardFails,
      negCell, cell?, jsIdx, grid0, rejectOracle, List.foldl,
      show Int.tmod 1 4 = 1 by decide, show Int.tmod 2 4 = 2 by decide,
      show Int.tmod 3 4 = 3 by decide, show Int.tmod 4 4 = 0 by decide,
      show Int.tmod 5 4 = 1 by decide,
      show Int.toNat 0 = 0 by decide, show Int.toNat 1 = 1 by decide,
      show Int.toNat 2 = 2 by decide, show Int.toNat 3 = 3 by decide]
    have l2 : paintCell true [[-1,1,1,-1],[-1,1,1,1],[1,1,1,1],[-1,-1,1,1]] 4 1 0 1 0 1 DrawMode.square rejectOracle
        [[-1,1,1,-1],[-1,1,1,1],[1,1,1,1],[-1,-1,1,1]] 0 1 = [[-1,-1,1,-1],[-1,1,1,1],[1,1,1,1],[-1,-1,1,1]] := by
      norm_num [paintCell, inShapeB, metropolisAccept, calculateDeltaE, guardFails,
      negCell, cell?, jsIdx, grid0, rejectOracle, List.foldl,
      show Int.tmod 1 4 = 1 by decide, show Int.tmod 2 4 = 2 by decide,
      show Int.tmod 3 4 = 3 by decide, show Int.tmod 4 4 = 0 by decide,
      show Int.tmod 5 4 = 1 by decide,
      show Int.toNat 0 = 0 by decide, show Int.toNat 1 = 1 by decide,
      show Int.toNat 2 = 2 by decide, show Int.toNat 3 = 3 by decide]
    have l3 : paintCell true [[-1,-1,1,-1],[-1,1,1,1],[1,1,1,1],[-1,-1,1,1]] 4 1 0 1 0 1 DrawMode.square rejectOracle
        [[-1,-1,1,-1],[-1,1,1,1],[1,1,1,1],[-1,-1,1,1]] 0 2 = [[-1,-1,-1,-1],[-1,1,1,1],[1,1,1,1],[-1,-1,1,1]] := by
      norm_num [paintCell, inShapeB, metropolisAccept, calculateDeltaE, guardFails,
      negCell, cell?, jsIdx, grid0, rejectOracle, List.foldl,
      show Int.tmod 1 4 = 1 by decide, show Int.tmod 2 4 = 2 by decide,
      show Int.tmod 3 4 = 3 by decide, show Int.tmod 4 4 = 0 by decide,
      show Int.tmod 5 4 = 1 by decide,
      show Int.toNat 0 = 0 by decide, show Int.toNat 1 = 1 by decide,
      show Int.toNat 2 = 2 by decide, show Int.toNat 3 = 3 by decide]
    have l4 : paintCell true [[-1,-1,-1,-1],[-1,1,1,1],[1,1,1,1],[-1,-1,1,1]] 4 1 0 1 0 1 DrawMode.square rejectOracle
        [[-1,-1,-1,-1],[-1,1,1,1],[1,1,1,1],[-1,-1,1,1]] 1 0 = [[-1,-1,-1,-1],[1,1,1,1],[1,1,1,1],[-1,-1,1,1]] := by
      norm_num [paintCell, inShapeB, metropolisAccept, calculateDeltaE, guardFails,
      negCell, cell?, jsIdx, grid0, rejectOracle, List.foldl,
      show Int.tmod 1 4 = 1 by decide, show Int.tmod 2 4 = 2 by decide,
      show Int.tmod 3 4 = 3 by decide, show Int.tmod 4 4 = 0 by decide,
      show Int.tmod 5 4 = 1 by decide,
      show Int.toNat 0 = 0 by decide, show Int.toNat 1 = 1 by decide,
      show Int.toNat 2 = 2 by decide, show Int.toNat 3 = 3 by decide]
    have l5 : paintCell true [[-1,-1,-1,-1],[1,1,1,1],[1,1,1,1],[-1,-1,1,1]] 4 1 0 1 0 1 DrawMode.square rejectOracle
        [[-1,-1,-1,-1],[1,1,1,1],[1,1,1,1],[-1,-1,1,1]] 1 1 = [[-1,-1,-1,-1],[1,1,1,1],[1,1,1,1],[-1,-1,1,1]] := by
      norm_num [paintCell, inShapeB, metropolisAccept, calculateDeltaE, guardFails,
      negCell, cell?, jsIdx, grid0, rejectOracle, List.foldl,
      show Int.tmod 1 4 = 1 by decide, show Int.tmod 2 4 = 2 by decide,
      show Int.tmod 3 4 = 3 by decide, show Int.tmod 4 4 = 0 by decide,
      show Int.tmod 5 4 = 1 by decide,
      show Int.toNat 0 = 0 by decide, show Int.toNat 1 = 1 by decide,
      show Int.toNat 2 = 2 by decide, show Int.toNat 3 = 3 by decide]
    have l6 : paintCell true [[-1,-1,-1,-1],[1,1,1,1],[1,1,1,1],[-1,-1,1,1]] 4 1 0 1 0 1 DrawMode.square rejectOracle
        [[-1,-1,-1,-1],[1,1,1,1],[1,1,1,1],[-1,-1,1,1]] 1 2 = [[-1,-1,-1,-1],[1,1,1,1],[1,1,1,1],[-1,-1,1,1]] := by
      norm_num [paintCell, inShapeB, metropolisAccept, calculateDeltaE, guardFails,
      negCell, cell?, jsIdx, grid0, rejectOracle, List.foldl,
      show Int.tmod 1 4 = 1 by decide, show Int.tmod 2 4 = 2 by decide,
      show Int.tmod 3 4 = 3 by decide, show Int.tmod 4 4 = 0 by decide,
      show Int.tmod 5 4 = 1 by decide,
      show Int.toNat 0 = 0 by decide, show Int.toNat 1 = 1 by decide,
      show Int.toNat 2 = 2 by decide, show Int.toNat 3 = 3 by decide]
    unfold flipSpinsInRadiusLiveSpec
    rw [if_neg (by decide), paintRangeY, paintRangeX]
    simp only [List.foldl_cons, List.foldl_nil]
    rw [l1, l2, l3, l4, l5, l6]
  rw [h1, h2]
  decide

/-- Claim C1 (amended): in `flipSpinsInRadius`, every member cell's
Metropolis decision — `paintFlips`, whose `calculateDeltaE` is applied to
the pre-paint lattice `g` — is evaluated against the FROZEN pre-paint
lattice, never against the working copy; accepted flips are written into a
copy that replaces the lattice once, at the end of the operation, exactly
as in the full sweep.  (The claim's "mutable working copy updated
immediately after each accepted flip, so later cells see already-flipped
neighbors" is refuted by `claim_C1_counterexample`.) -/
theorem claim_C1_paint_frozen (gi : Bool) (g : Grid) (N : ℕ)
    (J H cx cy r : ℚ) (mode : DrawMode) (A : ℤ → ℤ → ℚ → Bool) (j i s : ℤ)
    (hg : guardFails gi g N = false) (hc : cell? g j i = some s) :
    cell? (flipSpinsInRadius gi g N J H cx cy r mode A) j i =
      some (if paintYStart cy r ≤ j ∧ j ≤ paintYEnd N cy r ∧
              paintXStart cx r ≤ i ∧ i ≤ paintXEnd N cx r ∧
              paintFlips gi g N J H cx cy r mode A j i = true
            then -s else s) := by
  rw [cell?_flipSpinsInRadius gi g N J H cx cy r mode A hg j i, hc]
  split
  · rfl
  · rfl

theorem claim_C1_witness :
    cell? (flipSpinsInRadius true grid0 4 1 0 1 0 1 DrawMode.square rejectOracle) 0 0 =
      some (if paintYStart 0 1 ≤ 0 ∧ (0 : ℤ) ≤ paintYEnd 4 0 1 ∧
              paintXStart 1 1 ≤ 0 ∧ (0 : ℤ) ≤ paintXEnd 4 1 1 ∧
              paintFlips true grid0 4 1 0 1 0 1 DrawMode.square rejectOracle 0 0 = true
            then -1 else 1) :=
  claim_C1_paint_frozen true grid0 4 1 0 1 0 1 DrawMode.square rejectOracle 0 0 1
    (by decide) (by decide)

/-- Claim C2: changing the grid size or the initial-pattern selector
reinitializes the lattice, clears the history, and forces pause. -/
theorem claim_C2_pause (s : SimState) (r : ℕ → ℕ → ℚ) :
    (∀ n : ℕ, n ≠ s.size →
      (setSizeEvent n r s).isPlaying = false ∧
      (setSizeEvent n r s).grid = initializeGrid n s.initialPattern r ∧
      (setSizeEvent n r s).magnetizationHistory = []) ∧
    (∀ p : Pattern, p ≠ s.initialPattern →
      (setPatternEvent p r s).isPlaying = false ∧
      (setPatternEvent p r s).grid = initializeGrid s.size p r ∧
      (setPatternEvent p r s).magnetizationHistory = []) := by
  constructor
  · intro n hn
    unfold setSizeEvent
    rw [if_neg hn]
    exact ⟨rfl, rfl, rfl⟩
  · intro p hp
    unfold setPatternEvent
    rw [if_neg hp]
    exact ⟨rfl, rfl, rfl⟩

theorem claim_C2_witness :
    (setSizeEvent 5 (fun _ _ => 0) simState0).isPlaying = false ∧
    (setPatternEvent Pattern.positive (fun _ _ => 0) simState0).isPlaying = false :=
  ⟨((claim_C2_pause simState0 (fun _ _ => 0)).1 5 (by decide)).1,
   ((claim_C2_pause simState0 (fun _ _ => 0)).2 Pattern.positive (by decide)).1⟩

/-- Claim C3: one sweep folds exactly the `size * size` trials of
`List.range (size * size)` over a working copy seeded from the pre-sweep
lattice (visible in `evolveSystem` and in `evolveHits`, which filters that
same range); each trial's site `(⌊rx i·N⌋, ⌊ry i·N⌋)` lies in
`[0,N)×[0,N)` whenever the draw is in `[0,1)`; and the final value of any
cell is its pre-sweep spin negated once per accepted trial on it, with
every Metropolis decision taken against the frozen pre-sweep lattice
(`evolveHits` reads only `g`), the copy replacing the lattice once at the
end. -/
theorem claim_C3_sweep :
    (∀ (N : ℕ) (q : ℚ), 0 < N → 0 ≤ q → q < 1 →
      0 ≤ ⌊q * (N : ℚ)⌋ ∧ ⌊q * (N : ℚ)⌋ < N) ∧
    (∀ (gi : Bool) (g : Grid) (N : ℕ) (J H : ℚ) (rx ry : ℕ → ℚ)
       (A : ℕ → ℚ → Bool) (j i s : ℤ),
      guardFails gi g N = false → cell? g j i = some s →
      cell? (evolveSystem gi g N J H rx ry A) j i =
        some ((-1) ^ (evolveHits gi g N J H rx ry A i j) * s)) := by
  constructor
  · intro N q hN hq0 hq1
    constructor
    · exact Int.floor_nonneg.mpr (by positivity)
    · rw [Int.floor_lt]
      push_cast
      nlinarith [hq1, hq0, (show (0 : ℚ) < (N : ℚ) by exact_mod_cast hN)]
  · intro gi g N J H rx ry A j i s hg hc
    rw [cell?_evolveSystem gi g N J H rx ry A hg j i, hc]
    rfl

theorem claim_C3_witness :
    (0 ≤ ⌊(1/2 : ℚ) * ((4 : ℕ) : ℚ)⌋ ∧ ⌊(1/2 : ℚ) * ((4 : ℕ) : ℚ)⌋ < 4) ∧
    cell? (evolveSystem true grid0 4 1 0 (fun _ => 0) (fun _ => 0)
        (fun _ _ => true)) 0 0 =
      some ((-1) ^ (evolveHits true grid0 4 1 0 (fun _ => 0) (fun _ => 0)
        (fun _ _ => true) 0 0) * 1) :=
  ⟨claim_C3_sweep.1 4 (1/2) (by norm_num) (by norm_num) (by norm_num),
   claim_C3_sweep.2 true grid0 4 1 0 (fun _ => 0) (fun _ => 0) (fun _ _ => true)
     0 0 1 (by decide) (by decide)⟩

/-- Claim C4: in the shared Metropolis test used by both the sweep and the
paint loop, a candidate is accepted unconditionally iff `deltaE ≤ 0`; with
an oracle faithful to the uniform draws, acceptance is exactly
`deltaE ≤ 0 ∨ u < exp(-deltaE / max(0.1, T))`; and for `T ≤ 0.1` the
floor makes the configured temperature irrelevant at the point of use. -/
theorem claim_C4_acceptance :
    (∀ (a : ℚ → Bool) (d : ℚ), d ≤ 0 → metropolisAccept a d = true) ∧
    (∀ (A : ℤ → ℤ → ℚ → Bool) (u : ℤ → ℤ → ℚ) (T : ℚ),
      FaithfulPaintOracle A u T → ∀ (x y : ℤ) (d : ℚ),
        (metropolisAccept (A x y) d = true ↔ acceptanceRule T (u x y) d)) ∧
    (∀ (A : ℕ → ℚ → Bool) (u : ℕ → ℚ) (T : ℚ),
      FaithfulEvolveOracle A u T → ∀ (i : ℕ) (d : ℚ),
        (metropolisAccept (A i) d = true ↔ acceptanceRule T (u i) d)) ∧
    (∀ T u d : ℚ, T ≤ 1/10 → (acceptanceRule T u d ↔ acceptanceRule (1/10) u d)) := by
  refine ⟨?_, ?_, ?_, ?_⟩
  · intro a d hd
    unfold metropolisAccept
    simp [hd]
  · intro A u T hF x y d
    unfold metropolisAccept acceptanceRule
    simp only [Bool.or_eq_true, decide_eq_true_eq, hF x y d]
  · intro A u T hF i d
    unfold metropolisAccept acceptanceRule
    simp only [Bool.or_eq_true, decide_eq_true_eq, hF i d]
  · intro T u d hT
    unfold acceptanceRule
    rw [max_eq_left hT, max_self]

theorem claim_C4_witness :
    metropolisAccept ((fun _ _ _ => false) (0 : ℤ) (0 : ℤ)) (-1) = true ∧
    (metropolisAccept ((fun _ _ _ => true) (3 : ℤ) (5 : ℤ)) 7 = true ↔
      acceptanceRule 2 0 7) ∧
    (acceptanceRule 0 (1/2) 3 ↔ acceptanceRule (1/10) (1/2) 3) :=
  ⟨claim_C4_acceptance.1 _ (-1) (by norm_num),
   claim_C4_acceptance.2.1 (fun _ _ _ => true) (fun _ _ => 0) 2
     (fun x y d => by simpa using Real.exp_pos _) 3 5 7,
   claim_C4_acceptance.2.2.2 0 (1/2) 3 (by norm_num)⟩

/-- Claim C5: for every well-formed `N×N` lattice and in-range site,
`calculateDeltaE` returns `2·J·s·nsum + 2·H·s`, where `nsum` sums the four
neighbours at the modulo-`N` wrapped rows `(y-1+N)%N`, `(y+1)%N` and
columns `(x-1+N)%N`, `(x+1)%N` (JavaScript `%` = `Int.tmod`); wrap-around,
never clamping. -/
theorem claim_C5_deltaE (g : Grid) (N : ℕ) (J H : ℚ) (hWF : WellFormed g N)
    (hN : 0 < N) (x y : ℤ) (hx0 : 0 ≤ x) (hxN : x < N) (hy0 : 0 ≤ y)
    (hyN : y < N) :
    calculateDeltaE true g N J H x y =
      2 * J * (spinAt g y x : ℚ) *
        ((spinAt g (Int.tmod (y - 1 + N) N) x + spinAt g (Int.tmod (y + 1) N) x +
          spinAt g y (Int.tmod (x - 1 + N) N) + spinAt g y (Int.tmod (x + 1) N) : ℤ) : ℚ) +
      2 * H * (spinAt g y x : ℚ) :=
  calculateDeltaE_formula g N J H hWF hN x y hx0 hxN hy0 hyN

theorem claim_C5_witness :
    calculateDeltaE true grid0 4 1 0 1 0 =
      2 * 1 * (spinAt grid0 0 1 : ℚ) *
        ((spinAt grid0 (Int.tmod (0 - 1 + 4) 4) 1 + spinAt grid0 (Int.tmod (0 + 1) 4) 1 +
          spinAt grid0 0 (Int.tmod (1 - 1 + 4) 4) + spinAt grid0 0 (Int.tmod (1 + 1) 4) : ℤ) : ℚ) +
      2 * 0 * (spinAt grid0 0 1 : ℚ) :=
  claim_C5_deltaE grid0 4 1 0 ⟨by decide, by decide, by decide⟩ (by norm_num)
    1 0 (by decide) (by decide) (by decide) (by decide)

/-- Claim C6: the paint operation leaves every cell outside the painted
shape (circle: `dx²+dy² ≤ r²`; square: `|dx| ≤ r ∧ |dy| ≤ r`, from the
fractional centre) with exactly its pre-paint spin, and the iterated
bounding box is clamped into `[0, N-1]` on both axes rather than rejecting
out-of-range coordinates. -/
theorem claim_C6_frame :
    (∀ (gi : Bool) (g : Grid) (N : ℕ) (J H cx cy r : ℚ) (mode : DrawMode)
       (A : ℤ → ℤ → ℚ → Bool) (j i : ℤ),
      guardFails gi g N = false → inShapeB cx cy r mode i j = false →
      cell? (flipSpinsInRadius gi g N J H cx cy r mode A) j i = cell? g j i) ∧
    (∀ (N : ℕ) (cx cy r : ℚ),
      0 ≤ paintXStart cx r ∧ paintXEnd N cx r ≤ (N : ℤ) - 1 ∧
      0 ≤ paintYStart cy r ∧ paintYEnd N cy r ≤ (N : ℤ) - 1) := by
  constructor
  · intro gi g N J H cx cy r mode A j i hg hshape
    rw [cell?_flipSpinsInRadius gi g N J H cx cy r mode A hg j i,
        if_neg (by
          rintro ⟨_, _, _, _, hflip⟩
          unfold paintFlips at hflip
          rw [hshape] at hflip
          simp at hflip)]
  · intro N cx cy r
    exact ⟨le_max_left _ _, min_le_left _ _, le_max_left _ _, min_le_left _ _⟩

theorem claim_C6_witness :
    cell? (flipSpinsInRadius true grid0 4 1 0 1 0 1 DrawMode.circle
        (fun _ _ _ => true)) 3 3 = cell? grid0 3 3 ∧
    (0 ≤ paintXStart 1 1 ∧ paintXEnd 4 1 1 ≤ (4 : ℤ) - 1 ∧
     0 ≤ paintYStart 0 1 ∧ paintYEnd 4 0 1 ≤ (4 : ℤ) - 1) :=
  ⟨claim_C6_frame.1 true grid0 4 1 0 1 0 1 DrawMode.circle (fun _ _ _ => true)
     3 3 (by decide) (by simp only [inShapeB]; norm_num),
   claim_C6_frame.2 4 1 0 1⟩

/-- Claim C7: for every `N` in `[10, 69]` and every pattern,
initialization yields exactly `N×N` cells all in `{+1, -1}`, and both a
full sweep and a paint operation preserve the dimensions and the `±1`
range. -/
theorem claim_C7_wellformedness :
    (∀ (N : ℕ) (p : Pattern) (r : ℕ → ℕ → ℚ), 10 ≤ N → N ≤ 69 →
      WellFormed (initializeGrid N p r) N) ∧
    (∀ (gi : Bool) (g : Grid) (N : ℕ) (J H : ℚ) (rx ry : ℕ → ℚ)
       (A : ℕ → ℚ → Bool), WellFormed g N →
      WellFormed (evolveSystem gi g N J H rx ry A) N) ∧
    (∀ (gi : Bool) (g : Grid) (N : ℕ) (J H cx cy r : ℚ) (mode : DrawMode)
       (A : ℤ → ℤ → ℚ → Bool), WellFormed g N →
      WellFormed (flipSpinsInRadius gi g N J H cx cy r mode A) N) :=
  ⟨fun N p r _ _ => WellFormed_initializeGrid N p r,
   fun gi g N J H rx ry A h => WellFormed_evolveSystem gi g N J H rx ry A h,
   fun gi g N J H cx cy r mode A h =>
     WellFormed_flipSpinsInRadius gi g N J H cx cy r mode A h⟩

theorem claim_C7_witness :
    WellFormed (initializeGrid 10 Pattern.checkerboard (fun _ _ => 0)) 10 ∧
    WellFormed (evolveSystem true grid0 4 1 0 (fun _ => 0) (fun _ => 0)
      (fun _ _ => true)) 4 ∧
    WellFormed (flipSpinsInRadius true grid0 4 1 0 1 0 1 DrawMode.square
      rejectOracle) 4 :=
  ⟨claim_C7_wellformedness.1 10 Pattern.checkerboard (fun _ _ => 0)
     (by norm_num) (by norm_num),
   claim_C7_wellformedness.2.1 true grid0 4 1 0 (fun _ => 0) (fun _ => 0)
     (fun _ _ => true) ⟨by decide, by decide, by decide⟩,
   claim_C7_wellformedness.2.2 true grid0 4 1 0 1 0 1 DrawMode.square
     rejectOracle ⟨by decide, by decide, by decide⟩⟩

/-- Claim C8: the magnetization statistic is `(sum of spins / N²) · 100`,
always in `[-100, 100]` on well-formed lattices; immediately after
initialization it is exactly `+100` for all-positive, `-100` for
all-negative, `0` for checkerboard at even `N`, and the small imbalance
`100/N²` at odd `N`. -/
theorem claim_C8_magnetization :
    (∀ (g : Grid) (N : ℕ), WellFormed g N → 0 < N →
      netMagnetization g N = ((sumSpins g : ℚ) / ((N : ℚ) * (N : ℚ))) * 100 ∧
      -100 ≤ netMagnetization g N ∧ netMagnetization g N ≤ 100) ∧
    (∀ (N : ℕ) (r : ℕ → ℕ → ℚ), 0 < N →
      netMagnetization (initializeGrid N Pattern.positive r) N = 100) ∧
    (∀ (N : ℕ) (r : ℕ → ℕ → ℚ), 0 < N →
      netMagnetization (initializeGrid N Pattern.negative r) N = -100) ∧
    (∀ (N : ℕ) (r : ℕ → ℕ → ℚ), 0 < N → N % 2 = 0 →
      netMagnetization (initializeGrid N Pattern.checkerboard r) N = 0) ∧
    (∀ (N : ℕ) (r : ℕ → ℕ → ℚ), 0 < N → N % 2 = 1 →
      netMagnetization (initializeGrid N Pattern.checkerboard r) N =
        100 / ((N : ℚ) * (N : ℚ))) := by
  refine ⟨?_, ?_, ?_, ?_, ?_⟩
  · intro g N hWF hN
    exact ⟨rfl, netMagnetization_bounds g N hWF hN⟩
  · intro N r hN
    have hD : ((N : ℚ) * (N : ℚ)) ≠ 0 := by positivity
    unfold netMagnetization
    rw [sumSpins_positive]
    push_cast
    field_simp
  · intro N r hN
    have hD : ((N : ℚ) * (N : ℚ)) ≠ 0 := by positivity
    unfold netMagnetization
    rw [sumSpins_negative]
    push_cast
    field_simp
  · intro N r hN hEven
    unfold netMagnetization
    rw [sumSpins_checkerboard, if_pos hEven]
    simp
  · intro N r hN hOdd
    have hD : ((N : ℚ) * (N : ℚ)) ≠ 0 := by positivity
    unfold netMagnetization
    rw [sumSpins_checkerboard, if_neg (by omega)]
    push_cast
    field_simp

theorem claim_C8_witness :
    (netMagnetization grid0 4 = ((sumSpins grid0 : ℚ) / ((4 : ℚ) * 4)) * 100 ∧
      -100 ≤ netMagnetization grid0 4 ∧ netMagnetization grid0 4 ≤ 100) ∧
    netMagnetization (initializeGrid 2 Pattern.positive (fun _ _ => 0)) 2 = 100 ∧
    netMagnetization (initializeGrid 2 Pattern.negative (fun _ _ => 0)) 2 = -100 ∧
    netMagnetization (initializeGrid 2 Pattern.checkerboard (fun _ _ => 0)) 2 = 0 ∧
    netMagnetization (initializeGrid 3 Pattern.checkerboard (fun _ _ => 0)) 3 =
      100 / ((3 : ℚ) * 3) :=
  ⟨claim_C8_magnetization.1 grid0 4 ⟨by decide, by decide, by decide⟩ (by norm_num),
   claim_C8_magnetization.2.1 2 (fun _ _ => 0) (by norm_num),
   claim_C8_magnetization.2.2.1 2 (fun _ _ => 0) (by norm_num),
   claim_C8_magnetization.2.2.2.1 2 (fun _ _ => 0) (by norm_num) (by norm_num),
   claim_C8_magnetization.2.2.2.2 3 (fun _ _ => 0) (by norm_num) (by norm_num)⟩

/-- Claim C9: `handleReset` restores the documented defaults exactly
(N=30, T=2.0, J=1.0, H=0.0, annealing 0, pattern random, interval 100),
stops the simulation, and clears the magnetization history to empty. -/
theorem claim_C9_reset (r : ℕ → ℕ → ℚ) (s : SimState) :
    (handleReset r s).size = 30 ∧ (handleReset r s).temperature = 2 ∧
    (handleReset r s).coupling = 1 ∧ (handleReset r s).externalField = 0 ∧
    (handleReset r s).annealingRate = 0 ∧
    (handleReset r s).initialPattern = Pattern.random ∧
    (handleReset r s).simulationSpeed = 100 ∧
    (handleReset r s).isPlaying = false ∧
    (handleReset r s).magnetizationHistory = [] :=
  ⟨rfl, rfl, rfl, rfl, rfl, rfl, rfl, rfl, rfl⟩

/-- Claim C10: `calculateDeltaE` is total but degrades silently to `0`
when the grid is uninitialized, its dimensions disagree with the
configured size, or the addressed cell is missing — and since the
Metropolis test accepts unconditionally at `deltaE = 0`, a caller
evaluating such a site flips it deterministically. -/
theorem claim_C10_guard :
    (∀ (g : Grid) (N : ℕ) (J H : ℚ) (x y : ℤ),
      calculateDeltaE false g N J H x y = 0) ∧
    (∀ (gi : Bool) (g : Grid) (N : ℕ) (J H : ℚ) (x y : ℤ), g.length ≠ N →
      calculateDeltaE gi g N J H x y = 0) ∧
    (∀ (gi : Bool) (g : Grid) (N : ℕ) (J H : ℚ) (x y : ℤ),
      cell? g y x = none → calculateDeltaE gi g N J H x y = 0) ∧
    (∀ a : ℚ → Bool, metropolisAccept a 0 = true) := by
  refine ⟨?_, ?_, ?_, ?_⟩
  · intro g N J H x y
    unfold calculateDeltaE guardFails
    simp
  · intro gi g N J H x y hne
    unfold calculateDeltaE guardFails
    rw [if_pos (by simp [hne])]
  · intro gi g N J H x y hnone
    unfold calculateDeltaE
    rw [if_pos (by simp [hnone])]
  · intro a
    unfold metropolisAccept
    simp

theorem claim_C10_witness :
    calculateDeltaE false grid0 4 1 0 1 0 = 0 ∧
    calculateDeltaE true [[1], [1]] 3 1 0 0 0 = 0 ∧
    calculateDeltaE true grid0 4 1 0 9 0 = 0 ∧
    metropolisAccept (fun _ => false) 0 = true :=
  ⟨claim_C10_guard.1 grid0 4 1 0 1 0,
   claim_C10_guard.2.1 true [[1], [1]] 3 1 0 0 0 (by decide),
   claim_C10_guard.2.2.1 true grid0 4 1 0 9 0 (by decide),
   claim_C10_guard.2.2.2 (fun _ => false)⟩
